import Mathlib

/-!
Shallow embedding of `src/telescope_dec/src/main.cpp`: a non-blocking
step-pulse generator for a stepper driver, a small command handler, and
the host loop's "move done" edge report.

Timestamps are microsecond counts held in `uint32_t` in the source; here
they are `Nat` values reduced modulo 2^32 wherever the source's unsigned
arithmetic wraps.  The source's `long remaining` and `int` speeds are
modelled as `Int`.
-/

set_option maxHeartbeats 1000000

/-- Reduce a microsecond count modulo 2^32, as `uint32_t` arithmetic does. -/
def u32 (n : Nat) : Nat := n % 4294967296

/-- The unsigned 32-bit difference `now - deadline`, i.e. the value of the
C expression `(uint32_t)(now - deadline)`. -/
def diff32 (now deadline : Nat) : Nat :=
  (now + (4294967296 - deadline % 4294967296)) % 4294967296

/-- The source's wraparound-safe deadline test `(int32_t)(now - deadline) >= 0`:
the unsigned difference, reinterpreted as a signed 32-bit value, is
nonnegative exactly when the unsigned difference is below 2^31. -/
def timeReached (now deadline : Nat) : Bool :=
  diff32 now deadline < 2147483648

/-- The `Runner` struct of the source (motion state), with its member
initializers as defaults. -/
structure Runner where
  enabled : Bool := false
  continuous : Bool := false
  dir : Bool := false
  remaining : Int := 0
  stepIntervalUs : Nat := 2000
  pulseWidthUs : Nat := 3
  nextStepUs : Nat := 0
  stepHigh : Bool := false
  stepHighUntilUs : Nat := 0
  lastSps : Int := 500
  deriving Repr, DecidableEq

/-- `setEnable`: records the flag (the digital write is hardware I/O). -/
def setEnable (flag : Bool) (st : Runner) : Runner :=
  { st with enabled := flag }

/-- `setDir`: records the direction (the digital write is hardware I/O). -/
def setDir (d : Bool) (st : Runner) : Runner :=
  { st with dir := d }

/-- `setSpeedSps`: clamp to [1, 40000], store `lastSps`, derive the step
interval as `1000000 / sps`, and floor it at `pulseWidthUs + 4`. -/
def setSpeedSps (sps : Int) (st : Runner) : Runner :=
  let s1 : Int := if sps < 1 then 1 else sps
  let s2 : Int := if s1 > 40000 then 40000 else s1
  let iv : Nat := 1000000 / s2.toNat
  let iv2 : Nat := if iv < st.pulseWidthUs + 4 then st.pulseWidthUs + 4 else iv
  { st with lastSps := s2, stepIntervalUs := iv2 }

/-- `serviceStepper`: one scheduler tick at time `now`.  Returns the new
state and whether a rising edge fired on the step output this tick. -/
def tick (now : Nat) (st : Runner) : Runner × Bool :=
  if st.stepHigh then
    if timeReached now st.stepHighUntilUs then
      ({ st with stepHigh := false }, false)
    else
      (st, false)
  else if st.enabled && (st.continuous || decide (0 < st.remaining)) then
    if timeReached now st.nextStepUs then
      let st1 : Runner :=
        { st with stepHigh := true,
                  stepHighUntilUs := u32 (now + st.pulseWidthUs),
                  nextStepUs := u32 (now + st.stepIntervalUs) }
      if !st.continuous && decide (0 < st.remaining) then
        ({ st1 with remaining := st1.remaining - 1 }, true)
      else
        (st1, true)
    else
      (st, false)
  else
    (st, false)

/-- Run a sequence of scheduler ticks at the given times; return the final
state and the number of rising edges produced. -/
def runTicks : List Nat → Runner → Runner × Nat
  | [], st => (st, 0)
  | t :: ts, st =>
    let p := tick t st
    let q := runTicks ts p.1
    (q.1, (if p.2 then 1 else 0) + q.2)

/-- Final state after a sequence of ticks. -/
def finalState (ts : List Nat) (st : Runner) : Runner := (runTicks ts st).1

/-- Number of rising edges produced by a sequence of ticks. -/
def countEdges (ts : List Nat) (st : Runner) : Nat := (runTicks ts st).2

/-- A parsed command line, as dispatched by `handleLine`.  A numeric
argument is `none` when the token is absent; an unparseable token reaches
the handler as the value 0, which is how `atoi`/`atol` deliver it. -/
inductive Cmd where
  | help
  | info
  | enable (a : Option Int)
  | dir (a : Option Int)
  | stop
  | run (a : Option Int)
  | move (a b : Option Int)
  | current (a : Option Int)
  | microsteps (a : Option Int)
  | stealth (a : Option Int)
  | sgthrs (a : Option Int)
  | unknown
  deriving Repr, DecidableEq

/-- The `run` branch of `handleLine`: speed defaults to `lastSps`, sign
gives direction, then continuous mode is entered. -/
def handleRun (a : Option Int) (st : Runner) : Runner :=
  let sps0 : Int := a.getD st.lastSps
  let d : Bool := decide (sps0 < 0)
  let sps : Int := if sps0 < 0 then -sps0 else sps0
  let st1 := setDir d st
  let st2 := setSpeedSps sps st1
  let st3 := { st2 with continuous := true, remaining := 0 }
  setEnable true st3

/-- The `move` branch of `handleLine`: a missing steps argument reports
and leaves the state alone; otherwise sign of steps gives direction,
speed defaults to `lastSps`, and a finite move is started. -/
def handleMove (a b : Option Int) (st : Runner) : Runner :=
  match a with
  | none => st
  | some steps0 =>
    let sps0 : Int := b.getD st.lastSps
    let d : Bool := decide (steps0 < 0)
    let steps : Int := if steps0 < 0 then -steps0 else steps0
    let sps : Int := if sps0 < 0 then -sps0 else sps0
    let st1 := setDir d st
    let st2 := setSpeedSps sps st1
    let st3 := { st2 with continuous := false, remaining := steps }
    setEnable true st3

/-- The `stop` branch of `handleLine`. -/
def handleStop (st : Runner) : Runner :=
  { st with continuous := false, remaining := 0 }

/-- `handleLine` restricted to its effect on the motion state.  The
driver-configuration branches (`current`, `microsteps`, `stealth`,
`sgthrs`) and the printing branches never touch the `run` struct. -/
def handleCmd (c : Cmd) (st : Runner) : Runner :=
  match c with
  | .enable a => setEnable (match a with | none => false | some v => decide (v ≠ 0)) st
  | .dir a => setDir (match a with | none => false | some v => decide (v ≠ 0)) st
  | .stop => handleStop st
  | .run a => handleRun a st
  | .move a b => handleMove a b st
  | _ => st

/-- Whether a command starts motion (`run` or `move`). -/
def Cmd.isMotionStart : Cmd → Bool
  | .run _ => true
  | .move _ _ => true
  | _ => false

/-- The motion state as `setup()` leaves it: defaults, then
`setDir(false)` and `setEnable(false)`. -/
def setupRunner : Runner := setEnable false (setDir false {})

/-- State of `loop()`: the runner plus the `static long lastRemaining`
variable used by the "move done" edge report. -/
structure LoopState where
  runner : Runner
  lastRemaining : Int
  deriving Repr, DecidableEq

/-- The loop state at startup: `lastRemaining` is initialized to -1. -/
def initLoop : LoopState := { runner := setupRunner, lastRemaining := -1 }

/-- One iteration of `loop()`: handle at most one buffered command line,
run one scheduler tick at time `now`, then evaluate the "move done"
report condition and resample `lastRemaining`.  Returns the new loop
state and whether "move done" was printed. -/
def loopStep (c : Option Cmd) (now : Nat) (ls : LoopState) : LoopState × Bool :=
  let st1 := match c with | none => ls.runner | some c => handleCmd c ls.runner
  let st2 := (tick now st1).1
  let done : Bool := !st2.continuous && decide (ls.lastRemaining ≠ 0) && decide (st2.remaining = 0)
  ({ runner := st2, lastRemaining := st2.remaining }, done)

/-- Iterate `loop()` with no incoming commands at the given tick times;
count "move done" reports. -/
def loopRun : List Nat → LoopState → LoopState × Nat
  | [], ls => (ls, 0)
  | t :: ts, ls =>
    let p := loopStep none t ls
    let q := loopRun ts p.1
    (q.1, (if p.2 then 1 else 0) + q.2)

/-- A tick schedule that fires and releases `n` pulses back-to-back:
each step is fired exactly at `nextStepUs` and released exactly at the
pulse deadline the firing set. -/
def driveSchedule : Nat → Runner → List Nat
  | 0, _ => []
  | n + 1, st =>
    let st1 := (tick st.nextStepUs st).1
    let st2 := (tick st1.stepHighUntilUs st1).1
    st.nextStepUs :: st1.stepHighUntilUs :: driveSchedule n st2

/-- `driveSchedule`, preceded when necessary by one tick that releases an
in-flight pulse. -/
def moveSchedule (n : Nat) (st : Runner) : List Nat :=
  if st.stepHigh then
    st.stepHighUntilUs :: driveSchedule n { st with stepHigh := false }
  else
    driveSchedule n st

/-! ### Basic properties of the deadline comparison and of one tick -/

theorem timeReached_self (x : Nat) : timeReached x x = true := by
  simp only [timeReached, diff32, decide_eq_true_eq]
  omega

theorem tick_enabled (now : Nat) (s : Runner) :
    (tick now s).1.enabled = s.enabled := by
  unfold tick
  repeat' split
  all_goals rfl

theorem tick_continuous (now : Nat) (s : Runner) :
    (tick now s).1.continuous = s.continuous := by
  unfold tick
  repeat' split
  all_goals rfl

theorem tick_remaining_of_continuous (now : Nat) (s : Runner)
    (h : s.continuous = true) : (tick now s).1.remaining = s.remaining := by
  unfold tick
  repeat' split
  all_goals simp_all

theorem tick_remaining_fin (now : Nat) (s : Runner) (h : s.continuous = false) :
    ((tick now s).2 = true → 0 < s.remaining ∧ (tick now s).1.remaining = s.remaining - 1) ∧
    ((tick now s).2 = false → (tick now s).1.remaining = s.remaining) := by
  unfold tick
  repeat' split
  all_goals simp_all

theorem tick_noedge_of_disabled (now : Nat) (s : Runner) (h : s.enabled = false) :
    (tick now s).2 = false := by
  unfold tick
  repeat' split
  all_goals simp_all

theorem tick_of_stepHigh (now : Nat) (s : Runner) (h : s.stepHigh = true) :
    tick now s =
      (if timeReached now s.stepHighUntilUs then { s with stepHigh := false } else s, false) := by
  unfold tick
  rw [if_pos h]
  split <;> simp

theorem tick_release (now : Nat) (s : Runner) (hsh : s.stepHigh = true)
    (ht : timeReached now s.stepHighUntilUs = true) :
    tick now s = ({ s with stepHigh := false }, false) := by
  rw [tick_of_stepHigh now s hsh, if_pos ht]

theorem tick_fire (now : Nat) (s : Runner) (hsh : s.stepHigh = false)
    (hen : s.enabled = true) (hc : s.continuous = false) (hr : 0 < s.remaining)
    (ht : timeReached now s.nextStepUs = true) :
    tick now s =
      ({ s with stepHigh := true,
                stepHighUntilUs := u32 (now + s.pulseWidthUs),
                nextStepUs := u32 (now + s.stepIntervalUs),
                remaining := s.remaining - 1 }, true) := by
  unfold tick
  rw [if_neg (by simp [hsh]), if_pos (by simp [hen, hr]), if_pos ht,
    if_pos (by simp [hc, hr])]

/-! ### Properties of tick sequences -/

theorem finalState_nil (s : Runner) : finalState [] s = s := rfl

theorem finalState_cons (t : Nat) (ts : List Nat) (s : Runner) :
    finalState (t :: ts) s = finalState ts (tick t s).1 := rfl

theorem countEdges_nil (s : Runner) : countEdges [] s = 0 := rfl

theorem countEdges_cons (t : Nat) (ts : List Nat) (s : Runner) :
    countEdges (t :: ts) s =
      (if (tick t s).2 then 1 else 0) + countEdges ts (tick t s).1 := rfl

theorem noEdges_of_disabled (ts : List Nat) (s : Runner) (h : s.enabled = false) :
    countEdges ts s = 0 ∧ (finalState ts s).enabled = false := by
  induction ts generalizing s with
  | nil => exact ⟨rfl, h⟩
  | cons t ts ih =>
    have h1 : (tick t s).1.enabled = false := (tick_enabled t s).trans h
    have h2 := tick_noedge_of_disabled t s h
    rw [countEdges_cons, finalState_cons, h2]
    simpa using ih (tick t s).1 h1

theorem remaining_const_of_continuous (ts : List Nat) (s : Runner)
    (h : s.continuous = true) :
    (finalState ts s).remaining = s.remaining ∧ (finalState ts s).continuous = true := by
  induction ts generalizing s with
  | nil => exact ⟨rfl, h⟩
  | cons t ts ih =>
    have h1 : (tick t s).1.continuous = true := (tick_continuous t s).trans h
    rw [finalState_cons]
    obtain ⟨hr, hc⟩ := ih (tick t s).1 h1
    exact ⟨hr.trans (tick_remaining_of_continuous t s h), hc⟩

theorem finite_run_inv (ts : List Nat) (s : Runner) (h : s.continuous = false) :
    (finalState ts s).continuous = false ∧
    (countEdges ts s : Int) ≤ max 0 s.remaining ∧
    (finalState ts s).remaining = s.remaining - countEdges ts s := by
  induction ts generalizing s with
  | nil =>
    refine ⟨h, ?_, by simp [countEdges_nil, finalState_nil]⟩
    simp [countEdges_nil]
  | cons t ts ih =>
    have h1 : (tick t s).1.continuous = false := (tick_continuous t s).trans h
    obtain ⟨hc, hle, hrem⟩ := ih (tick t s).1 h1
    rw [countEdges_cons, finalState_cons]
    rcases he : (tick t s).2 with _ | _
    · have hr := (tick_remaining_fin t s h).2 he
      rw [hr] at hrem hle
      refine ⟨hc, ?_, ?_⟩
      · simp only [he, Bool.false_eq_true, if_false]
        simpa using hle
      · simp only [he, Bool.false_eq_true, if_false]
        push_cast
        omega
    · obtain ⟨hpos, hr⟩ := (tick_remaining_fin t s h).1 he
      rw [hr] at hrem hle
      refine ⟨hc, ?_, ?_⟩
      · simp only [he, if_true]
        push_cast
        omega
      · simp only [he, if_true]
        push_cast
        omega

theorem drive_exact (n : Nat) : ∀ s : Runner, s.stepHigh = false → s.enabled = true →
    s.continuous = false → s.remaining = (n : Int) →
    countEdges (driveSchedule n s) s = n ∧
    (finalState (driveSchedule n s) s).remaining = 0 := by
  induction n with
  | zero =>
    intro s _ _ _ hr
    exact ⟨rfl, hr⟩
  | succ n ih =>
    intro s hsh hen hc hr
    have hr0 : 0 < s.remaining := by rw [hr]; exact_mod_cast Nat.succ_pos n
    have hf := tick_fire s.nextStepUs s hsh hen hc hr0 (timeReached_self _)
    have hrel := tick_release (u32 (s.nextStepUs + s.pulseWidthUs))
      ({ s with
         stepHigh := true,
         stepHighUntilUs := u32 (s.nextStepUs + s.pulseWidthUs),
         nextStepUs := u32 (s.nextStepUs + s.stepIntervalUs),
         remaining := s.remaining - 1 } : Runner) rfl (timeReached_self _)
    have hremB : s.remaining - 1 = (n : Int) := by
      rw [hr]
      push_cast
      ring
    obtain ⟨ih1, ih2⟩ := ih
      ({ s with
         stepHigh := false,
         stepHighUntilUs := u32 (s.nextStepUs + s.pulseWidthUs),
         nextStepUs := u32 (s.nextStepUs + s.stepIntervalUs),
         remaining := s.remaining - 1 } : Runner) rfl hen hc hremB
    constructor
    · simp only [driveSchedule, countEdges_cons, hf, hrel]
      simp
      omega
    · simp only [driveSchedule, finalState_cons, hf, hrel]
      simpa using ih2

theorem move_exact (n : Nat) (s : Runner) (hen : s.enabled = true)
    (hc : s.continuous = false) (hr : s.remaining = (n : Int)) :
    countEdges (moveSchedule n s) s = n ∧
    (finalState (moveSchedule n s) s).remaining = 0 := by
  rcases hsh : s.stepHigh with _ | _
  · unfold moveSchedule
    rw [if_neg (by simp [hsh])]
    exact drive_exact n s hsh hen hc hr
  · have hrel := tick_release s.stepHighUntilUs s hsh (timeReached_self _)
    obtain ⟨h1, h2⟩ := drive_exact n ({ s with stepHigh := false } : Runner) rfl hen hc hr
    unfold moveSchedule
    rw [if_pos hsh]
    constructor
    · rw [countEdges_cons, hrel]
      simpa using h1
    · rw [finalState_cons, hrel]
      simpa using h2

theorem handleMove_fields (N : Nat) (b : Option Int) (st : Runner) :
    (handleMove (some (N : Int)) b st).remaining = (N : Int) ∧
    (handleMove (some (N : Int)) b st).continuous = false ∧
    (handleMove (some (N : Int)) b st).enabled = true ∧
    (handleMove (some (N : Int)) b st).stepHigh = st.stepHigh := by
  have hN : ¬((N : Int) < 0) := not_lt.mpr (Int.natCast_nonneg N)
  simp [handleMove, setEnable, setDir, setSpeedSps, hN]

/-! ### Claims -/

/-- Claim C1: while a pulse is in flight (`stepHigh` true), a scheduler tick
never produces a rising edge and never schedules one: the pulse-release rule
is evaluated first and the tick returns, leaving the next-step deadline
untouched, so the falling edge of each pulse precedes the next rising edge. -/
theorem C1_no_pulse_overlap (now : Nat) (st : Runner) (h : st.stepHigh = true) :
    (tick now st).2 = false ∧ (tick now st).1.nextStepUs = st.nextStepUs := by
  rw [tick_of_stepHigh now st h]
  refine ⟨rfl, ?_⟩
  split <;> rfl

theorem C1_no_pulse_overlap_witness :
    ({ stepHigh := true } : Runner).stepHigh = true ∧
    (tick 0 ({ stepHigh := true } : Runner)).2 = false ∧
    (tick 0 ({ stepHigh := true } : Runner)).1.nextStepUs =
      ({ stepHigh := true } : Runner).nextStepUs :=
  ⟨rfl, C1_no_pulse_overlap 0 { stepHigh := true } rfl⟩

/-- Claim C3: the scheduler's deadline comparisons are computed as a signed
32-bit difference and are therefore wraparound-safe: whenever the true
separation from deadline to `now` is below 2^31 the deadline compares as
reached (even across a wrap of the 32-bit microsecond counter), whenever the
deadline is still up to 2^31-1 in the future it compares as not reached, and
`tick` uses exactly this comparison for both the pulse-release deadline and
the next-step deadline. -/
theorem C3_wraparound_safe (deadline d : Nat) (h : d < 2147483648) :
    timeReached ((deadline + d) % 4294967296) deadline = true ∧
    (0 < d → timeReached deadline ((deadline + d) % 4294967296) = false) ∧
    (∀ (now : Nat) (st : Runner), st.stepHigh = true →
      tick now st =
        (if timeReached now st.stepHighUntilUs then { st with stepHigh := false } else st,
          false)) ∧
    (∀ (now : Nat) (st : Runner), st.stepHigh = false →
      ((tick now st).2 = true ↔
        (st.enabled = true ∧ (st.continuous = true ∨ 0 < st.remaining) ∧
          timeReached now st.nextStepUs = true))) := by
  refine ⟨?_, ?_, tick_of_stepHigh, ?_⟩
  · simp only [timeReached, diff32, decide_eq_true_eq]
    omega
  · intro hd
    simp only [timeReached, diff32, decide_eq_false_iff_not, not_lt]
    omega
  · intro now st hsh
    unfold tick
    rw [if_neg (by simp [hsh])]
    repeat' split
    all_goals simp_all

theorem C3_wraparound_safe_witness :
    15 < 2147483648 ∧
    timeReached ((4294967291 + 15) % 4294967296) 4294967291 = true :=
  ⟨by norm_num, (C3_wraparound_safe 4294967291 15 (by norm_num)).1⟩

/-- Claim C5: `setSpeedSps` clamps the requested speed to [1, 40000] and
stores the clamped value in `lastSps`, sets the step interval to
1000000 / clamped-sps microseconds re-clamped upward to at least
`pulseWidthUs + 4` (so the interval always dominates pulse width plus
guard afterwards), and leaves the next-step deadline and every other
field unchanged.  This holds for every integer input, including 0 and
1000000. -/
theorem C5_speed_clamp (st : Runner) (sps : Int) :
    (setSpeedSps sps st).lastSps = max 1 (min sps 40000) ∧
    (setSpeedSps sps st).stepIntervalUs =
      max (1000000 / (max 1 (min sps 40000)).toNat) (st.pulseWidthUs + 4) ∧
    st.pulseWidthUs + 4 ≤ (setSpeedSps sps st).stepIntervalUs ∧
    (setSpeedSps sps st).nextStepUs = st.nextStepUs ∧
    (setSpeedSps sps st).enabled = st.enabled ∧
    (setSpeedSps sps st).continuous = st.continuous ∧
    (setSpeedSps sps st).dir = st.dir ∧
    (setSpeedSps sps st).remaining = st.remaining ∧
    (setSpeedSps sps st).pulseWidthUs = st.pulseWidthUs ∧
    (setSpeedSps sps st).stepHigh = st.stepHigh ∧
    (setSpeedSps sps st).stepHighUntilUs = st.stepHighUntilUs := by
  have hclamp :
      (if (if sps < 1 then (1 : Int) else sps) > 40000 then (40000 : Int)
        else if sps < 1 then 1 else sps) = max 1 (min sps 40000) := by
    split_ifs <;> omega
  refine ⟨?_, ?_, ?_, rfl, rfl, rfl, rfl, rfl, rfl, rfl, rfl⟩
  · show (if (if sps < 1 then (1 : Int) else sps) > 40000 then (40000 : Int)
      else if sps < 1 then 1 else sps) = max 1 (min sps 40000)
    exact hclamp
  · show (if 1000000 / ((if (if sps < 1 then (1 : Int) else sps) > 40000 then (40000 : Int)
        else if sps < 1 then 1 else sps)).toNat < st.pulseWidthUs + 4
      then st.pulseWidthUs + 4
      else 1000000 / ((if (if sps < 1 then (1 : Int) else sps) > 40000 then (40000 : Int)
        else if sps < 1 then 1 else sps)).toNat) =
      max (1000000 / (max 1 (min sps 40000)).toNat) (st.pulseWidthUs + 4)
    rw [hclamp]
    split_ifs <;> omega
  · show st.pulseWidthUs + 4 ≤
      (if 1000000 / ((if (if sps < 1 then (1 : Int) else sps) > 40000 then (40000 : Int)
        else if sps < 1 then 1 else sps)).toNat < st.pulseWidthUs + 4
      then st.pulseWidthUs + 4
      else 1000000 / ((if (if sps < 1 then (1 : Int) else sps) > 40000 then (40000 : Int)
        else if sps < 1 then 1 else sps)).toNat)
    split_ifs <;> omega

/-- Claim C9: `run` enters continuous mode with `remaining = 0`, and in
continuous mode no sequence of scheduler ticks ever changes `remaining`:
the decrement branch is guarded by the negation of `continuous`, so
`remaining` stays 0 however many rising edges fire. -/
theorem C9_continuous_remaining (st : Runner) (a : Option Int) (ts : List Nat) :
    (handleRun a st).remaining = 0 ∧
    (handleRun a st).continuous = true ∧
    (finalState ts (handleRun a st)).remaining = 0 ∧
    (∀ s : Runner, s.continuous = true → (finalState ts s).remaining = s.remaining) := by
  refine ⟨rfl, rfl, ?_, fun s hs => (remaining_const_of_continuous ts s hs).1⟩
  exact (remaining_const_of_continuous ts (handleRun a st) rfl).1

theorem C9_continuous_remaining_witness :
    (finalState [0, 5, 10] (handleRun (some 1000) setupRunner)).remaining = 0 ∧
    (finalState [] (handleRun (some 1000) setupRunner)).remaining =
      (handleRun (some 1000) setupRunner).remaining :=
  ⟨(C9_continuous_remaining setupRunner (some 1000) [0, 5, 10]).2.2.1,
    (C9_continuous_remaining setupRunner (some 1000) []).2.2.2 _ rfl⟩

/-- Claim C10: the sign of the optional speed argument of `move` is
ignored: a negative speed yields exactly the same state as its absolute
value, since direction is derived only from the sign of the step count
and the speed is negated when negative. -/
theorem C10_move_speed_sign (st : Runner) (steps sps : Int) (h : sps < 0) :
    handleMove (some steps) (some sps) st = handleMove (some steps) (some (-sps)) st := by
  have h1 : ¬(-sps < 0) := by omega
  simp [handleMove, h, h1]

theorem C10_move_speed_sign_witness :
    (-5 : Int) < 0 ∧
    handleMove (some 3) (some (-5)) setupRunner =
      handleMove (some 3) (some (-(-5))) setupRunner :=
  ⟨by norm_num, C10_move_speed_sign setupRunner 3 (-5) (by norm_num)⟩

/-- Claim C2: after `move(N, sps)` with `enabled` held true, there is a tick
schedule producing exactly `N` rising edges with `remaining` ending at
exactly 0; over every tick schedule the edge count never exceeds `N`,
`remaining` never goes negative, and `remaining` plus the edges fired
always equals `N`; and in finite-move mode a tick decrements `remaining`
by exactly 1 when its rising edge fires and leaves it unchanged
otherwise. -/
theorem C2_finite_move_exact (st : Runner) (N : Nat) (b : Option Int) :
    countEdges (moveSchedule N (handleMove (some (N : Int)) b st))
      (handleMove (some (N : Int)) b st) = N ∧
    (finalState (moveSchedule N (handleMove (some (N : Int)) b st))
      (handleMove (some (N : Int)) b st)).remaining = 0 ∧
    (∀ ts : List Nat,
      (countEdges ts (handleMove (some (N : Int)) b st) : Int) ≤ (N : Int) ∧
      0 ≤ (finalState ts (handleMove (some (N : Int)) b st)).remaining ∧
      (finalState ts (handleMove (some (N : Int)) b st)).remaining +
        (countEdges ts (handleMove (some (N : Int)) b st) : Int) = (N : Int)) ∧
    (∀ (now : Nat) (s : Runner), s.continuous = false →
      ((tick now s).2 = true → 0 < s.remaining ∧ (tick now s).1.remaining = s.remaining - 1) ∧
      ((tick now s).2 = false → (tick now s).1.remaining = s.remaining)) := by
  obtain ⟨hrem, hc, hen, _⟩ := handleMove_fields N b st
  obtain ⟨e1, e2⟩ := move_exact N _ hen hc hrem
  refine ⟨e1, e2, ?_, fun now s h => tick_remaining_fin now s h⟩
  intro ts
  obtain ⟨_, fle, frem⟩ := finite_run_inv ts _ hc
  rw [hrem] at fle frem
  rw [max_eq_right (Int.natCast_nonneg N)] at fle
  refine ⟨fle, ?_, ?_⟩ <;> omega

theorem C2_finite_move_exact_witness :
    countEdges (moveSchedule 2 (handleMove (some ((2 : Nat) : Int)) none setupRunner))
      (handleMove (some ((2 : Nat) : Int)) none setupRunner) = 2 ∧
    (finalState (moveSchedule 2 (handleMove (some ((2 : Nat) : Int)) none setupRunner))
      (handleMove (some ((2 : Nat) : Int)) none setupRunner)).remaining = 0 ∧
    ((tick 0 setupRunner).2 = false → (tick 0 setupRunner).1.remaining = setupRunner.remaining) :=
  ⟨(C2_finite_move_exact setupRunner 2 none).1,
    (C2_finite_move_exact setupRunner 2 none).2.1,
    ((C2_finite_move_exact setupRunner 2 none).2.2.2 0 setupRunner rfl).2⟩

/-- Claim C6: disabling while a pulse is in flight leaves the pulse asserted
and its release deadline untouched; a later tick de-asserts it exactly when
the original release deadline is reached; and while `enabled` stays false
(which ticks never change) no tick sequence produces any rising edge. -/
theorem C6_disable_mid_pulse (st : Runner) (h : st.stepHigh = true) :
    (setEnable false st).stepHigh = true ∧
    (setEnable false st).stepHighUntilUs = st.stepHighUntilUs ∧
    (∀ now : Nat,
      ((tick now (setEnable false st)).1.stepHigh = false ↔
        timeReached now st.stepHighUntilUs = true)) ∧
    (∀ ts : List Nat, countEdges ts (setEnable false st) = 0 ∧
      (finalState ts (setEnable false st)).enabled = false) := by
  refine ⟨h, rfl, ?_, fun ts => noEdges_of_disabled ts _ rfl⟩
  intro now
  rw [tick_of_stepHigh now (setEnable false st) h]
  split <;> simp_all [setEnable]

theorem C6_disable_mid_pulse_witness :
    ({ stepHigh := true } : Runner).stepHigh = true ∧
    (setEnable false ({ stepHigh := true } : Runner)).stepHigh = true ∧
    ((tick 3 (setEnable false ({ stepHigh := true } : Runner))).1.stepHigh = false ↔
      timeReached 3 ({ stepHigh := true } : Runner).stepHighUntilUs = true) ∧
    countEdges [0, 1, 2] (setEnable false ({ stepHigh := true } : Runner)) = 0 :=
  ⟨rfl, (C6_disable_mid_pulse { stepHigh := true } rfl).1,
    (C6_disable_mid_pulse { stepHigh := true } rfl).2.2.1 3,
    ((C6_disable_mid_pulse { stepHigh := true } rfl).2.2.2 [0, 1, 2]).1⟩

/-- Claim C7: `stop` sets `continuous` to false and `remaining` to 0 and
changes nothing else (the record equation exhibits the frame); afterwards
no tick sequence produces a rising edge; an in-flight pulse is still
released exactly at its original deadline; and no command other than
`run` or `move` restores stepping (continuous stays false and remaining
stays 0). -/
theorem C7_stop_effect (st : Runner) :
    handleStop st = { st with continuous := false, remaining := 0 } ∧
    (∀ ts : List Nat, countEdges ts (handleStop st) = 0) ∧
    (∀ now : Nat, st.stepHigh = true →
      ((tick now (handleStop st)).1.stepHigh = false ↔
        timeReached now st.stepHighUntilUs = true)) ∧
    (∀ c : Cmd, c.isMotionStart = false →
      (handleCmd c (handleStop st)).continuous = false ∧
      (handleCmd c (handleStop st)).remaining = 0) := by
  refine ⟨rfl, ?_, ?_, ?_⟩
  · intro ts
    have h := (finite_run_inv ts (handleStop st) rfl).2.1
    have h2 : ((countEdges ts (handleStop st)) : Int) ≤ 0 := by
      simpa [handleStop] using h
    omega
  · intro now hsh
    rw [tick_of_stepHigh now (handleStop st) hsh]
    split <;> simp_all [handleStop]
  · intro c hc
    cases c <;> simp_all [handleCmd, Cmd.isMotionStart, setEnable, setDir,
      handleStop, handleRun, handleMove]

theorem C7_stop_effect_witness :
    handleStop ({ stepHigh := true } : Runner) =
      { ({ stepHigh := true } : Runner) with continuous := false, remaining := 0 } ∧
    countEdges [7] (handleStop ({ stepHigh := true } : Runner)) = 0 ∧
    ((tick 9 (handleStop ({ stepHigh := true } : Runner))).1.stepHigh = false ↔
      timeReached 9 ({ stepHigh := true } : Runner).stepHighUntilUs = true) ∧
    (handleCmd Cmd.stop (handleStop ({ stepHigh := true } : Runner))).remaining = 0 :=
  ⟨(C7_stop_effect { stepHigh := true }).1,
    (C7_stop_effect { stepHigh := true }).2.1 [7],
    (C7_stop_effect { stepHigh := true }).2.2.1 9 rfl,
    ((C7_stop_effect { stepHigh := true }).2.2.2 Cmd.stop rfl).2⟩

/-- Claim C8 counterexample: `enable` invoked with no argument is not a
no-op: from a state with `enabled` true it changes the state, because the
missing argument reaches `setEnable` as false. -/
theorem C8_counterexample :
    handleCmd (Cmd.enable none) ({ enabled := true } : Runner) ≠
      ({ enabled := true } : Runner) := by
  decide

/-- Claim C8 amended: a `move` with missing steps argument reports and
leaves the motion state unchanged, and the driver-configuration commands
(`current`, `microsteps`, `stealth`, `sgthrs`) with missing argument
never touch the motion state; but `enable` and `dir` with a missing (or
unparseable, hence parsed-as-0) argument are not no-ops: they treat the
argument as 0 and clear the respective flag; `run` with a missing
argument is not an error: it falls back to `lastSps`. -/
theorem C8_missing_argument (st : Runner) (b : Option Int) :
    handleCmd (Cmd.move none b) st = st ∧
    handleCmd (Cmd.current none) st = st ∧
    handleCmd (Cmd.microsteps none) st = st ∧
    handleCmd (Cmd.stealth none) st = st ∧
    handleCmd (Cmd.sgthrs none) st = st ∧
    handleCmd (Cmd.enable none) st = setEnable false st ∧
    handleCmd (Cmd.dir none) st = setDir false st ∧
    handleCmd (Cmd.run none) st = handleRun (some st.lastSps) st :=
  ⟨rfl, rfl, rfl, rfl, rfl, rfl, rfl, rfl⟩

/-! ### The "move done" report of loop() -/

theorem tick_stuck (now : Nat) (s : Runner) (hsh : s.stepHigh = false)
    (hen : s.enabled = false) : tick now s = (s, false) := by
  unfold tick
  rw [if_neg (by simp [hsh]), if_neg (by simp [hen])]

theorem loopRun_nil (ls : LoopState) : loopRun [] ls = (ls, 0) := rfl

theorem loopRun_cons (t : Nat) (ts : List Nat) (ls : LoopState) :
    loopRun (t :: ts) ls =
      ((loopRun ts (loopStep none t ls).1).1,
        (if (loopStep none t ls).2 then 1 else 0) +
          (loopRun ts (loopStep none t ls).1).2) := rfl

theorem loopStep_none (t : Nat) (ls : LoopState) :
    loopStep none t ls =
      ({ runner := (tick t ls.runner).1, lastRemaining := (tick t ls.runner).1.remaining },
        !(tick t ls.runner).1.continuous && decide (ls.lastRemaining ≠ 0) &&
          decide ((tick t ls.runner).1.remaining = 0)) := rfl

theorem loopRun_count (ts : List Nat) : ∀ ls : LoopState,
    ls.runner.continuous = false → ls.lastRemaining = ls.runner.remaining →
    (loopRun ts ls).2 =
      (if ls.runner.remaining ≠ 0 ∧ (finalState ts ls.runner).remaining = 0
       then 1 else 0) := by
  induction ts with
  | nil =>
    intro ls hc hl
    rw [loopRun_nil, finalState_nil]
    by_cases h : ls.runner.remaining = 0 <;> simp [h]
  | cons t ts ih =>
    intro ls hc hl
    have hcont1 : (tick t ls.runner).1.continuous = false :=
      (tick_continuous t ls.runner).trans hc
    have hIH := ih (loopStep none t ls).1 hcont1 rfl
    rw [loopRun_cons, hIH, finalState_cons]
    rcases he : (tick t ls.runner).2 with _ | _
    · have hr1 : (tick t ls.runner).1.remaining = ls.runner.remaining :=
        (tick_remaining_fin t ls.runner hc).2 he
      by_cases h0 : ls.runner.remaining = 0
      · simp [loopStep_none, hl, h0, hr1]
      · simp [loopStep_none, hl, h0, hr1]
    · obtain ⟨hpos, hr1⟩ := (tick_remaining_fin t ls.runner hc).1 he
      have hne : ls.runner.remaining ≠ 0 := by omega
      by_cases h1 : (tick t ls.runner).1.remaining = 0
      · have hfin0 : (finalState ts (tick t ls.runner).1).remaining = 0 := by
          obtain ⟨_, hle, hrem⟩ := finite_run_inv ts (tick t ls.runner).1 hcont1
          rw [h1] at hle hrem
          simp only [max_self] at hle
          omega
        simp [loopStep_none, hl, hcont1, h1, hfin0, hne]
      · simp [loopStep_none, hl, h1, hne]

/-- Claim C4 counterexample: the "move done" report is emitted on the very
first `loop()` iteration after startup, although `remaining` has been 0
since boot and no finite move was ever issued, because `lastRemaining` is
initialized to -1; so the report is not emitted only on a
nonzero-to-zero transition of `remaining`. -/
theorem C4_counterexample :
    (loopStep none 0 initLoop).2 = true ∧
    initLoop.runner.remaining = 0 ∧
    initLoop.runner.continuous = false := by
  decide

/-- Claim C4 amended: the report fires at the end of a loop iteration iff
`continuous` is false, the `remaining` value sampled at the end of the
previous iteration (initialized to -1, so the first iteration after
startup reports spuriously) is nonzero, and `remaining` is now 0.  At
iteration granularity this is edge-triggered and fires exactly once: a
report requires the previous sample nonzero and the current `remaining`
zero; no report can fire while the previous sample is 0; and over any
command-free run from a coherent loop state in finite-move mode the
number of reports is exactly 1 when `remaining` starts nonzero and ends
0 and exactly 0 otherwise — in particular a finite move of `N + 1` steps
driven to completion reports exactly once. -/
theorem C4_move_done_report :
    (∀ now : Nat, (loopStep none now initLoop).2 = true) ∧
    (∀ (c : Option Cmd) (now : Nat) (ls : LoopState), ls.lastRemaining = 0 →
      (loopStep c now ls).2 = false) ∧
    (∀ (now : Nat) (ls : LoopState), (loopStep none now ls).2 = true →
      ls.lastRemaining ≠ 0 ∧ (loopStep none now ls).1.runner.remaining = 0 ∧
      (loopStep none now ls).1.runner.continuous = false) ∧
    (∀ (ts : List Nat) (ls : LoopState),
      ls.runner.continuous = false → ls.lastRemaining = ls.runner.remaining →
      (loopRun ts ls).2 =
        (if ls.runner.remaining ≠ 0 ∧ (finalState ts ls.runner).remaining = 0
         then 1 else 0)) ∧
    (∀ (st : Runner) (N : Nat) (b : Option Int),
      (loopRun (moveSchedule (N + 1) (handleMove (some ((N + 1 : Nat) : Int)) b st))
        { runner := handleMove (some ((N + 1 : Nat) : Int)) b st,
          lastRemaining := (handleMove (some ((N + 1 : Nat) : Int)) b st).remaining }).2
        = 1) := by
  refine ⟨?_, ?_, ?_, fun ts ls hc hl => loopRun_count ts ls hc hl, ?_⟩
  · intro now
    simp only [loopStep_none, initLoop, tick_stuck now setupRunner rfl rfl]
    decide
  · intro c now ls h
    unfold loopStep
    simp [h]
  · intro now ls h
    simp only [loopStep_none, Bool.and_eq_true, Bool.not_eq_true',
      decide_eq_true_eq] at h
    exact ⟨h.1.2, h.2, h.1.1⟩
  · intro st N b
    obtain ⟨hrem, hc, hen, _⟩ := handleMove_fields (N + 1) b st
    obtain ⟨_, e2⟩ := move_exact (N + 1) _ hen hc hrem
    have hne : (handleMove (some ((N + 1 : Nat) : Int)) b st).remaining ≠ 0 := by
      rw [hrem]
      exact_mod_cast Nat.succ_ne_zero N
    rw [loopRun_count _ _ hc rfl, if_pos ⟨hne, e2⟩]

theorem C4_move_done_report_witness :
    (loopStep none 5 initLoop).2 = true ∧
    (loopRun (moveSchedule (0 + 1) (handleMove (some ((0 + 1 : Nat) : Int)) none setupRunner))
      { runner := handleMove (some ((0 + 1 : Nat) : Int)) none setupRunner,
        lastRemaining := (handleMove (some ((0 + 1 : Nat) : Int)) none setupRunner).remaining }).2
      = 1 :=
  ⟨C4_move_done_report.1 5, C4_move_done_report.2.2.2.2 setupRunner 0 none⟩
